import Mathlib

/-!
Verification of the `arena` bump-pointer allocator (`include/arena/arena.hpp`).

The arena carves aligned sub-allocations out of a fixed `std::vector<std::byte>`
buffer by advancing a single `offset_`.  All allocator arithmetic in the C++
source is done on `size_t`, so every operation below is modelled on `Nat` with
an explicit reduction modulo `2 ^ 64` wherever the C++ computation can wrap.
Pointers are modelled as `Nat` addresses; the buffer's base address (what
`buffer_.data()` returns) is part of the modelled state, since the alignment
arithmetic depends on it.  Buffer contents are irrelevant to every claim and
are not modelled.
-/

deriving instance DecidableEq for Except

namespace ArenaSpec

/-- Width of the C++ `size_t` value space: `2 ^ 64`. -/
def W : Nat := 2 ^ 64

/-- `size_t` addition: wraps modulo `2 ^ 64`. -/
def add64 (x y : Nat) : Nat := (x + y) % W

/-- `size_t` subtraction: two's-complement wraparound modulo `2 ^ 64`. -/
def sub64 (x y : Nat) : Nat := (x + (W - y % W)) % W

/-- `size_t` multiplication: wraps modulo `2 ^ 64`. -/
def mul64 (x y : Nat) : Nat := (x * y) % W

/-- `size_t` bitwise NOT: `~x` equals `(2 ^ 64 - 1) - x` on a 64-bit value. -/
def not64 (x : Nat) : Nat := (W - 1) - x % W

/-- `Arena::is_power_of_two(x)`: `x != 0 && (x & (x - 1)) == 0`. -/
def is_power_of_two (x : Nat) : Bool :=
  x != 0 && Nat.land x (x - 1) == 0

/-- `Arena::align_up(value, alignment)`:
`(value + (alignment - 1)) & ~(alignment - 1)` in `size_t` arithmetic. -/
def align_up (value alignment : Nat) : Nat :=
  Nat.land (add64 value (alignment - 1)) (not64 (alignment - 1))

/-- The `arena::Arena` state: the base address returned by `buffer_.data()`
(chosen by the system allocator at construction), the fixed buffer size
`buffer_.size()`, and the bump pointer `offset_`. -/
structure Arena where
  base : Nat
  capacity : Nat
  offset : Nat
deriving DecidableEq

/-- `Arena::Arena(std::size_t capacity_bytes)`: a fresh buffer of
`capacity` bytes at a system-chosen address `base`, with `offset_ = 0`. -/
def Arena.create (capacity base : Nat) : Arena :=
  ⟨base, capacity, 0⟩

/-- `Arena::used()`: the current offset. -/
def Arena.used (a : Arena) : Nat := a.offset

/-- `Arena::remaining()`: `capacity() - used()`. -/
def Arena.remaining (a : Arena) : Nat := a.capacity - a.used

/-- `Arena::empty()`: `offset_ == 0`. -/
def Arena.empty (a : Arena) : Bool := a.offset == 0

/-- `Arena::owns(p)`: whether address `p` lies in `[base, base + capacity)`. -/
def Arena.owns (a : Arena) (p : Nat) : Prop :=
  a.base ≤ p ∧ p < a.base + a.capacity

instance (a : Arena) (p : Nat) : Decidable (a.owns p) := by
  unfold Arena.owns; infer_instance

/-- `Arena::try_allocate(size, alignment)`: bump allocation in `size_t`
arithmetic, returning the allocated address (or `none` on failure) together
with the resulting arena state.  Mirrors the C++ source line by line:
a zero `size` is promoted to 1; a non-power-of-two alignment fails; then
`current = base + offset_`, `aligned = align_up(current, alignment)`,
`new_offset = (aligned - base) + size`, failing if `new_offset > capacity`
and otherwise committing `offset_ = new_offset` and returning `aligned`. -/
def Arena.try_allocate (a : Arena) (size alignment : Nat) : Option Nat × Arena :=
  let size := if size == 0 then 1 else size
  if is_power_of_two alignment then
    let base := a.base
    let current := add64 base a.offset
    let aligned := align_up current alignment
    let new_offset := add64 (sub64 aligned base) size
    if new_offset ≤ a.capacity then
      (some aligned, { a with offset := new_offset })
    else
      (none, a)
  else
    (none, a)

/-- The `new_offset` value `(aligned - base) + size` computed by
`Arena::try_allocate` in `size_t` arithmetic (after the `size == 0 → 1`
adjustment); the allocation commits exactly when it is at most the capacity. -/
def Arena.newOffset (a : Arena) (size alignment : Nat) : Nat :=
  add64 (sub64 (align_up (add64 a.base a.offset) alignment) a.base)
    (if size == 0 then 1 else size)

/-- The single exception type `Arena::allocate` can raise: `std::bad_alloc`. -/
inductive ArenaError where
  | badAlloc
deriving DecidableEq

/-- `Arena::allocate(size, alignment)`: calls `try_allocate` and throws
`std::bad_alloc` when it returns null. -/
def Arena.allocate (a : Arena) (size alignment : Nat) : Except ArenaError Nat × Arena :=
  match a.try_allocate size alignment with
  | (some p, a') => (Except.ok p, a')
  | (none, a') => (Except.error ArenaError.badAlloc, a')

/-- `Arena::make<T>(args...)` for a type `T` with `sizeof(T) = sizeT` and
`alignof(T) = alignT`: `allocate(sizeof(T), alignof(T))` followed by a
placement construction, which does not change the arena state. -/
def Arena.make (a : Arena) (sizeT alignT : Nat) : Except ArenaError Nat × Arena :=
  a.allocate sizeT alignT

/-- `Arena::make_array<T>(count)` for a type `T` with `sizeof(T) = sizeT` and
`alignof(T) = alignT`: returns `nullptr` without allocating when `count == 0`,
otherwise allocates `sizeof(T) * count` bytes — a `size_t` product, reduced
modulo `2 ^ 64` — at alignment `alignof(T)`. -/
def Arena.make_array (a : Arena) (sizeT alignT count : Nat) :
    Except ArenaError (Option Nat) × Arena :=
  if count == 0 then
    (Except.ok none, a)
  else
    match a.allocate (mul64 sizeT count) alignT with
    | (Except.ok p, a') => (Except.ok (some p), a')
    | (Except.error e, a') => (Except.error e, a')

/-- `Arena::Mark`: a saved `offset_` value. -/
structure Mark where
  offset : Nat := 0
deriving DecidableEq

/-- `Arena::mark()`: captures the current offset. -/
def Arena.mark (a : Arena) : Mark := ⟨a.offset⟩

/-- `Arena::rewind(m)`: restores `offset_ = m.offset` when
`m.offset <= buffer_.size()`, and otherwise does nothing. -/
def Arena.rewind (a : Arena) (m : Mark) : Arena :=
  if m.offset ≤ a.capacity then { a with offset := m.offset } else a

/-- `Arena::reset()`: sets `offset_ = 0`. -/
def Arena.reset (a : Arena) : Arena := { a with offset := 0 }

/-- `Arena::Arena(Arena&&)`: the destination steals the buffer
(`buffer_(std::move(other.buffer_))` leaves the moved-from `std::vector`
empty, so the source's base and capacity become 0) and copies the offset;
the source's offset is then zeroed.  Returns (destination, moved-from source). -/
def Arena.moveCtor (other : Arena) : Arena × Arena :=
  (⟨other.base, other.capacity, other.offset⟩, ⟨0, 0, 0⟩)

/-- `Arena::operator=(Arena&&)` on distinct objects (the `this != &other`
branch): steals the buffer and offset exactly as the move constructor does,
leaving the source with an empty buffer and a zero offset. -/
def Arena.moveAssign (_dest other : Arena) : Arena × Arena :=
  (⟨other.base, other.capacity, other.offset⟩, ⟨0, 0, 0⟩)

/-- The documented arena invariant `0 <= offset <= capacity`; the lower
bound is inherent to `size_t`/`Nat`, so only `offset ≤ capacity` is recorded. -/
def Arena.Inv (a : Arena) : Prop := a.offset ≤ a.capacity

instance (a : Arena) : Decidable a.Inv := by
  unfold Arena.Inv; infer_instance

/-- A sequence of `try_allocate` calls (size, alignment pairs) applied in
order, discarding the returned pointers. -/
def Arena.allocSeq (a : Arena) : List (Nat × Nat) → Arena
  | [] => a
  | c :: cs => Arena.allocSeq (a.try_allocate c.1 c.2).2 cs

/-- A store of arenas addressed by identity, so that a `Scope` (which holds
an `Arena*` in the C++ source) can be modelled as holding an index. -/
def Store : Type := Nat → Arena

/-- `Arena::Scope`: an optional arena pointer `a_` (null once moved-from)
and the mark `m_` captured at construction. -/
structure Scope where
  a_ : Option Nat
  m_ : Mark
deriving DecidableEq

/-- `Scope::Scope(Arena&)`: stores the arena pointer and captures `a.mark()`. -/
def Scope.create (σ : Store) (i : Nat) : Scope :=
  ⟨some i, (σ i).mark⟩

/-- `Scope::~Scope()`: `if (a_) a_->rewind(m_)`. -/
def Scope.destruct (s : Scope) (σ : Store) : Store :=
  match s.a_ with
  | none => σ
  | some i => Function.update σ i ((σ i).rewind s.m_)

/-- `Scope(Scope&&)`: the destination takes the (pointer, mark) pair; the
moved-from scope's pointer is nulled.  Returns (destination, source). -/
def Scope.moveCtor (other : Scope) : Scope × Scope :=
  (⟨other.a_, other.m_⟩, ⟨none, other.m_⟩)

/-- `Scope::operator=(Scope&&)` on distinct objects: if the destination is
still active it first rewinds its own arena to its own mark, then takes the
source's (pointer, mark) pair, and the source is nulled.
Returns (destination, source, resulting store). -/
def Scope.moveAssign (dest other : Scope) (σ : Store) : Scope × Scope × Store :=
  let σ' :=
    match dest.a_ with
    | none => σ
    | some i => Function.update σ i ((σ i).rewind dest.m_)
  (⟨other.a_, other.m_⟩, ⟨none, other.m_⟩, σ')

-- Sanity checks of the embedding on concrete inputs (mirroring the C++ tests).

example : (Arena.mk 16 64 3).try_allocate 5 8 = (some 24, Arena.mk 16 64 13) := by decide

example : (Arena.mk 16 1024 0).try_allocate 1 1 = (some 16, Arena.mk 16 1024 1) := by decide

example : (Arena.mk 16 16 0).try_allocate (2 ^ 63 + 17) (2 ^ 63) =
    (some (2 ^ 63), Arena.mk 16 16 1) := by decide

example : ((Arena.mk 16 4 0).allocate 1 3).1 = Except.error ArenaError.badAlloc := by decide

example : ((Arena.mk 16 4 4).allocate 1 1).1 = Except.error ArenaError.badAlloc := by decide

example : (Arena.mk 16 64 0).make_array 8 8 (2 ^ 61 + 1) =
    (Except.ok (some 16), Arena.mk 16 64 8) := by decide

/-! ### Helper lemmas -/

lemma land_def (x y : Nat) : Nat.land x y = x &&& y := rfl

/-- Masking with the high bits `2 ^ k * (2 ^ n - 1)` clears the low `k` bits:
for `m < 2 ^ (k + n)` it rounds `m` down to a multiple of `2 ^ k`. -/
lemma land_high_mask (m k n : Nat) (hm : m < 2 ^ (k + n)) :
    Nat.land m (2 ^ k * (2 ^ n - 1)) = m / 2 ^ k * 2 ^ k := by
  have h1 : 2 ^ k * (2 ^ n - 1) = (2 ^ n - 1) <<< k := by
    rw [Nat.shiftLeft_eq, Nat.mul_comm]
  have h2 : m / 2 ^ k * 2 ^ k = (m >>> k) <<< k := by
    rw [Nat.shiftLeft_eq, Nat.shiftRight_eq_div_pow]
  rw [land_def, h1, h2]
  apply Nat.eq_of_testBit_eq
  intro j
  rw [Nat.testBit_and, Nat.testBit_shiftLeft, Nat.testBit_shiftLeft,
    Nat.testBit_shiftRight, Nat.testBit_two_pow_sub_one]
  by_cases hjk : k ≤ j
  · have hkj : k + (j - k) = j := by omega
    rw [hkj]
    by_cases hjn : j - k < n
    · simp [ge_iff_le, hjk, hjn, Bool.and_comm]
    · have hj : 2 ^ (k + n) ≤ 2 ^ j :=
        Nat.pow_le_pow_right (by norm_num) (by omega)
      have hmf : Nat.testBit m j = false :=
        Nat.testBit_lt_two_pow (lt_of_lt_of_le hm hj)
      simp [ge_iff_le, hjk, hjn, hmf]
  · simp [ge_iff_le, hjk]

/-- On inputs that do not wrap, `align_up` with a power-of-two alignment is
ordinary ceiling-rounding: `(x + (2^k - 1)) / 2^k * 2^k`. -/
lemma align_up_pow2 (x k : Nat) (hk : k ≤ 64) (hx : x + 2 ^ k ≤ W) :
    align_up x (2 ^ k) = (x + (2 ^ k - 1)) / 2 ^ k * 2 ^ k := by
  have hpos : 0 < 2 ^ k := Nat.two_pow_pos k
  have hkW : 2 ^ k ≤ W := by
    unfold W; exact Nat.pow_le_pow_right (by norm_num) hk
  have hWpos : 0 < W := Nat.two_pow_pos 64
  unfold align_up add64 not64
  have h1 : (2 ^ k - 1) % W = 2 ^ k - 1 := Nat.mod_eq_of_lt (by omega)
  have h2 : (x + (2 ^ k - 1)) % W = x + (2 ^ k - 1) := Nat.mod_eq_of_lt (by omega)
  rw [h1, h2]
  have hsplit : 2 ^ k * 2 ^ (64 - k) = W := by
    rw [← Nat.pow_add]; unfold W; congr 1; omega
  have h4 : 2 ^ k * (2 ^ (64 - k) - 1) + 2 ^ k = 2 ^ k * 2 ^ (64 - k) := by
    rw [← Nat.mul_succ]; congr 1
    have : 0 < 2 ^ (64 - k) := Nat.two_pow_pos _
    omega
  have h3 : W - 1 - (2 ^ k - 1) = 2 ^ k * (2 ^ (64 - k) - 1) := by omega
  rw [h3]
  apply land_high_mask
  have hk64 : k + (64 - k) = 64 := by omega
  rw [hk64]
  have : (2:Nat) ^ 64 = W := rfl
  omega

/-- `(x + (a - 1)) / a * a` is at least `x`. -/
lemma ceil_div_mul_ge (x a : Nat) (ha : 0 < a) : x ≤ (x + (a - 1)) / a * a := by
  have h := Nat.div_add_mod (x + (a - 1)) a
  have hm : (x + (a - 1)) % a < a := Nat.mod_lt _ ha
  rw [Nat.mul_comm]
  generalize (x + (a - 1)) / a = q at *
  generalize hrr : (x + (a - 1)) % a = r at *
  generalize hpp : a * q = p at *
  omega

/-- `(x + (a - 1)) / a * a` is less than `x + a`. -/
lemma ceil_div_mul_lt (x a : Nat) (ha : 0 < a) : (x + (a - 1)) / a * a < x + a := by
  have h := Nat.div_add_mod (x + (a - 1)) a
  have hm : (x + (a - 1)) % a < a := Nat.mod_lt _ ha
  rw [Nat.mul_comm]
  generalize (x + (a - 1)) / a = q at *
  generalize hrr : (x + (a - 1)) % a = r at *
  generalize hpp : a * q = p at *
  omega

/-- The `size == 0 → 1` adjustment performed by `try_allocate` computes
`max size 1`. -/
lemma size_clamp_eq_max (s : Nat) : (if s == 0 then 1 else s) = max s 1 := by
  rcases s with _ | n
  · rfl
  · rw [if_neg (by simp)]
    omega

/-- `try_allocate`, unfolded to a case tree over its two failure tests. -/
lemma try_allocate_eq (a : Arena) (s al : Nat) :
    a.try_allocate s al =
      if is_power_of_two al then
        if a.newOffset s al ≤ a.capacity then
          (some (align_up (add64 a.base a.offset) al),
            { a with offset := a.newOffset s al })
        else (none, a)
      else (none, a) := rfl

/-- A power of two passes the code's `is_power_of_two` test. -/
lemma pow2_land_pred (kk : Nat) : Nat.land (2 ^ kk) (2 ^ kk - 1) = 0 := by
  rw [land_def]
  apply Nat.eq_of_testBit_eq
  intro i
  rw [Nat.testBit_and, Nat.testBit_two_pow, Nat.testBit_two_pow_sub_one,
    Nat.zero_testBit]
  by_cases h : kk = i
  · subst h; simp
  · simp [h]

lemma pow2_is_power_of_two (kk : Nat) : is_power_of_two (2 ^ kk) = true := by
  have h2 : 2 ^ kk ≠ 0 := (Nat.two_pow_pos kk).ne'
  simp [is_power_of_two, pow2_land_pred, h2]

/-- The code's `is_power_of_two` test is exact: it accepts precisely the
powers of two. -/
lemma is_power_of_two_iff (x : Nat) :
    is_power_of_two x = true ↔ ∃ kk, x = 2 ^ kk := by
  constructor
  · intro h
    unfold is_power_of_two at h
    rw [Bool.and_eq_true, bne_iff_ne, beq_iff_eq] at h
    obtain ⟨hx0, hland⟩ := h
    refine ⟨Nat.log 2 x, ?_⟩
    by_contra hne
    have h1 : 2 ^ Nat.log 2 x ≤ x := Nat.pow_log_le_self 2 hx0
    have h2 : x < 2 ^ (Nat.log 2 x + 1) := Nat.lt_pow_succ_log_self (by norm_num) x
    set kk := Nat.log 2 x with hkk
    have hp : 0 < 2 ^ kk := Nat.two_pow_pos kk
    rw [Nat.pow_succ] at h2
    have h3 : 2 ^ kk < x := lt_of_le_of_ne h1 fun hh => hne hh.symm
    have hb1 : Nat.testBit x kk = true := by
      rw [Nat.testBit_to_div_mod]
      have hdd : x / 2 ^ kk = 1 := by
        have hlow : 1 ≤ x / 2 ^ kk := (Nat.one_le_div_iff hp).mpr h1
        have hhigh : x / 2 ^ kk < 2 := by
          rw [Nat.div_lt_iff_lt_mul hp]; omega
        omega
      simp [hdd]
    have hb2 : Nat.testBit (x - 1) kk = true := by
      rw [Nat.testBit_to_div_mod]
      have hdd : (x - 1) / 2 ^ kk = 1 := by
        have hlow : 1 ≤ (x - 1) / 2 ^ kk :=
          (Nat.one_le_div_iff hp).mpr (by omega)
        have hhigh : (x - 1) / 2 ^ kk < 2 := by
          rw [Nat.div_lt_iff_lt_mul hp]; omega
        omega
      simp [hdd]
    have hbit : Nat.testBit (Nat.land x (x - 1)) kk = true := by
      rw [land_def, Nat.testBit_and, hb1, hb2]; rfl
    rw [hland, Nat.zero_testBit] at hbit
    exact Bool.noConfusion hbit
  · rintro ⟨kk, rfl⟩
    exact pow2_is_power_of_two kk

lemma is_power_of_two_false_iff (x : Nat) :
    is_power_of_two x = false ↔ ¬ ∃ kk, x = 2 ^ kk := by
  rw [← is_power_of_two_iff]
  cases is_power_of_two x <;> simp

/-- `try_allocate` returns null exactly when the alignment fails the
power-of-two test or the computed `new_offset` exceeds the capacity. -/
lemma try_allocate_none_iff (a : Arena) (s al : Nat) :
    (a.try_allocate s al).1 = none ↔
      is_power_of_two al = false ∨ a.capacity < a.newOffset s al := by
  rw [try_allocate_eq]
  cases hB : is_power_of_two al with
  | false => simp
  | true =>
      by_cases h2 : a.newOffset s al ≤ a.capacity
      · rw [if_pos rfl, if_pos h2]
        simp [Nat.not_lt.mpr h2]
      · rw [if_pos rfl, if_neg h2]
        simp [Nat.lt_of_not_le h2]

/-- Same statement, with the power-of-two test replaced by its meaning. -/
lemma try_allocate_none_iff_math (a : Arena) (s al : Nat) :
    (a.try_allocate s al).1 = none ↔
      (¬ ∃ kk, al = 2 ^ kk) ∨ a.capacity < a.newOffset s al := by
  rw [try_allocate_none_iff, is_power_of_two_false_iff]

/-- A failed `try_allocate` leaves the arena unchanged. -/
lemma try_allocate_fail_state (a : Arena) (s al : Nat)
    (h : (a.try_allocate s al).1 = none) : (a.try_allocate s al).2 = a := by
  rw [try_allocate_eq] at h ⊢
  by_cases h1 : is_power_of_two al = true
  · rw [if_pos h1] at h ⊢
    by_cases h2 : a.newOffset s al ≤ a.capacity
    · rw [if_pos h2] at h; simp at h
    · rw [if_neg h2]
  · rw [if_neg h1]

/-- `try_allocate` never changes the buffer: base and capacity persist. -/
lemma try_allocate_pres (a : Arena) (s al : Nat) :
    ((a.try_allocate s al).2).capacity = a.capacity ∧
      ((a.try_allocate s al).2).base = a.base := by
  rw [try_allocate_eq]
  by_cases h1 : is_power_of_two al = true
  · rw [if_pos h1]
    by_cases h2 : a.newOffset s al ≤ a.capacity
    · rw [if_pos h2]; exact ⟨rfl, rfl⟩
    · rw [if_neg h2]; exact ⟨rfl, rfl⟩
  · rw [if_neg h1]; exact ⟨rfl, rfl⟩

/-- On success, the committed offset is the computed `new_offset` and it is
within capacity. -/
lemma try_allocate_some (a : Arena) (s al p : Nat) (a' : Arena)
    (h : a.try_allocate s al = (some p, a')) :
    is_power_of_two al = true ∧ p = align_up (add64 a.base a.offset) al ∧
      a' = { a with offset := a.newOffset s al } ∧
      a.newOffset s al ≤ a.capacity := by
  rw [try_allocate_eq] at h
  by_cases h1 : is_power_of_two al = true
  · rw [if_pos h1] at h
    by_cases h2 : a.newOffset s al ≤ a.capacity
    · rw [if_pos h2] at h
      rw [Prod.mk.injEq, Option.some.injEq] at h
      exact ⟨h1, h.1.symm, h.2.symm, h2⟩
    · rw [if_neg h2] at h
      simp at h
  · rw [if_neg h1] at h
    simp at h

lemma allocate_cases (a : Arena) (s al : Nat) :
    a.allocate s al =
      match a.try_allocate s al with
      | (some p, a') => (Except.ok p, a')
      | (none, a') => (Except.error ArenaError.badAlloc, a') := rfl

lemma allocate_snd (a : Arena) (s al : Nat) :
    (a.allocate s al).2 = (a.try_allocate s al).2 := by
  rcases h : a.try_allocate s al with ⟨p, a'⟩
  rw [allocate_cases, h]
  cases p <;> rfl

lemma allocate_ok_iff (a : Arena) (s al p : Nat) (a' : Arena) :
    a.allocate s al = (Except.ok p, a') ↔ a.try_allocate s al = (some p, a') := by
  rcases h : a.try_allocate s al with ⟨q, b⟩
  rw [allocate_cases, h]
  cases q <;> simp

lemma allocate_error_elim (a : Arena) (s al : Nat) (e : ArenaError)
    (h : (a.allocate s al).1 = Except.error e) :
    (a.try_allocate s al).1 = none ∧ e = ArenaError.badAlloc := by
  rcases hh : a.try_allocate s al with ⟨q, b⟩
  rw [allocate_cases, hh] at h
  cases q with
  | none =>
      cases e
      exact ⟨rfl, rfl⟩
  | some q => simp at h

lemma allocate_error_iff (a : Arena) (s al : Nat) :
    (a.allocate s al).1 = Except.error ArenaError.badAlloc ↔
      (a.try_allocate s al).1 = none := by
  rcases hh : a.try_allocate s al with ⟨q, b⟩
  rw [allocate_cases, hh]
  cases q <;> simp

/-- `try_allocate` preserves the invariant `offset ≤ capacity`. -/
lemma try_allocate_inv (a : Arena) (s al : Nat) (h : a.Inv) :
    ((a.try_allocate s al).2).Inv := by
  rw [try_allocate_eq]
  by_cases h1 : is_power_of_two al = true
  · rw [if_pos h1]
    by_cases h2 : a.newOffset s al ≤ a.capacity
    · rw [if_pos h2]; exact h2
    · rw [if_neg h2]; exact h
  · rw [if_neg h1]; exact h

lemma make_array_snd (a : Arena) (sT alT c : Nat) :
    (a.make_array sT alT c).2 =
      if c = 0 then a else (a.allocate (mul64 sT c) alT).2 := by
  by_cases hc : c = 0
  · subst hc; rfl
  · rw [if_neg hc]
    unfold Arena.make_array
    rw [if_neg (by simpa using hc)]
    rcases h : a.allocate (mul64 sT c) alT with ⟨e, a'⟩
    cases e <;> rfl

lemma allocSeq_capacity (a : Arena) (calls : List (Nat × Nat)) :
    (a.allocSeq calls).capacity = a.capacity := by
  induction calls generalizing a with
  | nil => rfl
  | cons c cs ih =>
      unfold Arena.allocSeq
      rw [ih]
      exact (try_allocate_pres a c.1 c.2).1

/-- The master lemma for the no-overflow regime: when the alignment
computation and the `new_offset` sum stay below `2 ^ 64`, `try_allocate`
computes with exact natural-number arithmetic. -/
lemma try_allocate_nowrap (a : Arena) (size k : Nat) (hk : k < 64)
    (hA : a.base + a.offset + 2 ^ k ≤ W)
    (hB : align_up (a.base + a.offset) (2 ^ k) - a.base +
      (if size == 0 then 1 else size) < W) :
    a.try_allocate size (2 ^ k) =
      if align_up (a.base + a.offset) (2 ^ k) - a.base +
          (if size == 0 then 1 else size) ≤ a.capacity then
        (some (align_up (a.base + a.offset) (2 ^ k)),
          { a with offset := align_up (a.base + a.offset) (2 ^ k) - a.base +
              (if size == 0 then 1 else size) })
      else (none, a) := by
  have hpos : 0 < 2 ^ k := Nat.two_pow_pos k
  have hxW : a.base + a.offset < W := by omega
  have hup := align_up_pow2 (a.base + a.offset) k (Nat.le_of_lt hk) hA
  have hge := ceil_div_mul_ge (a.base + a.offset) (2 ^ k) hpos
  have hlt := ceil_div_mul_lt (a.base + a.offset) (2 ^ k) hpos
  have hxq : a.base + a.offset ≤ align_up (a.base + a.offset) (2 ^ k) := by
    rw [hup]; exact hge
  have hqlt : align_up (a.base + a.offset) (2 ^ k) < a.base + a.offset + 2 ^ k := by
    rw [hup]; exact hlt
  have hbase : a.base < W := by omega
  have hqW : align_up (a.base + a.offset) (2 ^ k) < W := by omega
  have hadd : add64 a.base a.offset = a.base + a.offset := by
    unfold add64; exact Nat.mod_eq_of_lt hxW
  have hsub : sub64 (align_up (a.base + a.offset) (2 ^ k)) a.base =
      align_up (a.base + a.offset) (2 ^ k) - a.base := by
    unfold sub64
    rw [Nat.mod_eq_of_lt hbase]
    have hsw : align_up (a.base + a.offset) (2 ^ k) + (W - a.base) =
        W + (align_up (a.base + a.offset) (2 ^ k) - a.base) := by omega
    rw [hsw, Nat.add_mod_left]
    exact Nat.mod_eq_of_lt (by omega)
  have hnew : a.newOffset size (2 ^ k) =
      align_up (a.base + a.offset) (2 ^ k) - a.base +
        (if size == 0 then 1 else size) := by
    unfold Arena.newOffset
    rw [hadd, hsub]
    unfold add64
    exact Nat.mod_eq_of_lt hB
  rw [try_allocate_eq, if_pos (pow2_is_power_of_two k), hnew, hadd]

/-! ### Claim theorems -/

/-- **C1, counterexample.** On a perfectly ordinary 16-byte arena at base
address 16, `try_allocate(2^63 + 17, 2^63)` succeeds in the code — the
`size_t` sum `(aligned - base) + size` wraps to 1 — yet the returned address
`2^63` is not owned by the arena, the committed offset is not
`(aligned - base) + max(size, 1)`, and the true (unwrapped) new offset
exceeds the capacity, so by the claim the call should have failed. -/
theorem try_allocate_overflow_counterexample :
    (Arena.mk 16 16 0).try_allocate (2 ^ 63 + 17) (2 ^ 63) =
        (some (2 ^ 63), Arena.mk 16 16 1) ∧
      ¬ (Arena.mk 16 16 0).owns (2 ^ 63) ∧
      (Arena.mk 16 16 0).capacity <
        align_up (16 + 0) (2 ^ 63) - 16 + max (2 ^ 63 + 17) 1 ∧
      (Arena.mk 16 16 1).offset ≠ 2 ^ 63 - 16 + max (2 ^ 63 + 17) 1 := by
  refine ⟨by decide, by decide, by decide, by decide⟩

/-- **C1 (amended).** For every `allocate`/`try_allocate` call with a
power-of-two alignment, *provided the `size_t` arithmetic does not overflow*
(`base + offset + alignment ≤ 2^64`, and the aligned address minus base plus
`max(size, 1)` is below `2^64`): a successful call returns exactly the next
free address `base + offset` rounded up to the nearest multiple of the
alignment (so the address is a multiple of the alignment and is owned by the
arena), commits `offset = (address - base) + max(size, 1)`, and the call
fails precisely when that new offset would exceed the capacity. -/
theorem try_allocate_aligned_spec (a : Arena) (size k : Nat) (hk : k < 64)
    (hA : a.base + a.offset + 2 ^ k ≤ W)
    (hB : align_up (a.base + a.offset) (2 ^ k) - a.base + max size 1 < W) :
    (∀ p a', a.try_allocate size (2 ^ k) = (some p, a') →
      a.base + a.offset ≤ p ∧ p % 2 ^ k = 0 ∧ p < a.base + a.offset + 2 ^ k ∧
        a.owns p ∧ a'.offset = p - a.base + max size 1 ∧
        a'.base = a.base ∧ a'.capacity = a.capacity) ∧
    ((a.try_allocate size (2 ^ k)).1 = none ↔
      a.capacity < align_up (a.base + a.offset) (2 ^ k) - a.base + max size 1) ∧
    (∀ p a', a.allocate size (2 ^ k) = (Except.ok p, a') →
      a.try_allocate size (2 ^ k) = (some p, a')) ∧
    ((a.allocate size (2 ^ k)).1 = Except.error ArenaError.badAlloc ↔
      (a.try_allocate size (2 ^ k)).1 = none) := by
  have hmax := size_clamp_eq_max size
  have hB' : align_up (a.base + a.offset) (2 ^ k) - a.base +
      (if size == 0 then 1 else size) < W := by rw [hmax]; exact hB
  have hM := try_allocate_nowrap a size k hk hA hB'
  have hpos : 0 < 2 ^ k := Nat.two_pow_pos k
  have hup := align_up_pow2 (a.base + a.offset) k (Nat.le_of_lt hk) hA
  have hge := ceil_div_mul_ge (a.base + a.offset) (2 ^ k) hpos
  have hlt := ceil_div_mul_lt (a.base + a.offset) (2 ^ k) hpos
  have hxq : a.base + a.offset ≤ align_up (a.base + a.offset) (2 ^ k) := by
    rw [hup]; exact hge
  have hqlt : align_up (a.base + a.offset) (2 ^ k) <
      a.base + a.offset + 2 ^ k := by
    rw [hup]; exact hlt
  have hmod : align_up (a.base + a.offset) (2 ^ k) % 2 ^ k = 0 := by
    rw [hup]; exact Nat.mul_mod_left _ _
  refine ⟨?_, ?_, ?_, ?_⟩
  · intro p a' hpa
    rw [hM] at hpa
    by_cases hcond : align_up (a.base + a.offset) (2 ^ k) - a.base +
        (if size == 0 then 1 else size) ≤ a.capacity
    · rw [if_pos hcond] at hpa
      rw [Prod.mk.injEq, Option.some.injEq] at hpa
      obtain ⟨hp, ha'⟩ := hpa
      subst hp
      subst ha'
      rw [hmax] at hcond
      refine ⟨hxq, hmod, hqlt, ⟨by omega, by omega⟩, by rw [hmax], rfl, rfl⟩
    · rw [if_neg hcond] at hpa
      simp at hpa
  · rw [hM]
    by_cases hcond : align_up (a.base + a.offset) (2 ^ k) - a.base +
        (if size == 0 then 1 else size) ≤ a.capacity
    · rw [if_pos hcond]
      rw [hmax] at hcond
      simp [Nat.not_lt.mpr hcond]
    · rw [if_neg hcond]
      rw [hmax] at hcond
      simp [Nat.lt_of_not_le hcond]
  · intro p a' hpa
    exact (allocate_ok_iff a size (2 ^ k) p a').mp hpa
  · exact allocate_error_iff a size (2 ^ k)

/-- **C1, witness.** A concrete in-range call: on a 64-byte arena at base 16
with offset 3, `try_allocate(5, 8)` returns the aligned address 24, which is
owned, and commits offset `24 - 16 + max 5 1 = 13`. -/
theorem try_allocate_aligned_spec_witness :
    (Arena.mk 16 64 3).owns 24 ∧
      (Arena.mk 16 64 13).offset = 24 - 16 + max 5 1 :=
  have h := (try_allocate_aligned_spec (Arena.mk 16 64 3) 5 3 (by decide)
    (by decide) (by decide)).1 24 (Arena.mk 16 64 13) (by decide)
  ⟨h.2.2.2.1, h.2.2.2.2.1⟩

/-- **C2.** `try_allocate` is a total function into `Option` — failure
(a non-power-of-two alignment, or a computed new offset past the capacity)
is reported as a null result, never an exception — and every failed
allocation attempt, through `try_allocate` or through `allocate`, leaves the
arena state (and hence `used()`) unchanged. -/
theorem try_allocate_reports_failure :
    (∀ (a : Arena) (size alignment : Nat),
      (a.try_allocate size alignment).1 = none ↔
        (¬ ∃ kk, alignment = 2 ^ kk) ∨
          a.capacity < a.newOffset size alignment) ∧
    (∀ (a : Arena) (size alignment : Nat),
      (a.try_allocate size alignment).1 = none →
        (a.try_allocate size alignment).2 = a) ∧
    (∀ (a : Arena) (size alignment : Nat) (e : ArenaError),
      (a.allocate size alignment).1 = Except.error e →
        (a.allocate size alignment).2 = a) := by
  refine ⟨?_, ?_, ?_⟩
  · intro a size alignment
    exact try_allocate_none_iff_math a size alignment
  · intro a size alignment h
    exact try_allocate_fail_state a size alignment h
  · intro a size alignment e h
    rw [allocate_snd]
    exact try_allocate_fail_state a size alignment
      (allocate_error_elim a size alignment e h).1

/-- **C2, witness.** `try_allocate(1, 3)` on a fresh 8-byte arena fails
(3 is not a power of two) and leaves the arena unchanged. -/
theorem try_allocate_reports_failure_witness :
    ((Arena.mk 16 8 0).try_allocate 1 3).2 = Arena.mk 16 8 0 :=
  try_allocate_reports_failure.2.1 (Arena.mk 16 8 0) 1 3 (by decide)

/-- **C3, counterexample.** The two failure conditions of `allocate` are
*not* distinguishable: an invalid alignment (3) and an out-of-capacity
request both raise the very same exception value (`std::bad_alloc`). -/
theorem allocate_error_indistinguishable_counterexample :
    ((Arena.mk 16 4 0).allocate 1 3).1 = Except.error ArenaError.badAlloc ∧
      ((Arena.mk 16 4 4).allocate 1 1).1 = Except.error ArenaError.badAlloc ∧
      ((Arena.mk 16 4 0).allocate 1 3).1 = ((Arena.mk 16 4 4).allocate 1 1).1 := by
  refine ⟨by decide, by decide, by decide⟩

/-- **C3 (amended).** `allocate` fails by raising, and it raises exactly on
the two conditions (alignment not a power of two, or the computed new offset
past the capacity); but both conditions raise the single exception
`std::bad_alloc`, so they are not distinguishable from the raised failure. -/
theorem allocate_raises_single_exception (a : Arena) (size alignment : Nat) :
    ((∃ e, (a.allocate size alignment).1 = Except.error e) ↔
      (¬ ∃ kk, alignment = 2 ^ kk) ∨
        a.capacity < a.newOffset size alignment) ∧
    (∀ e, (a.allocate size alignment).1 = Except.error e →
      e = ArenaError.badAlloc) := by
  constructor
  · constructor
    · rintro ⟨e, he⟩
      exact (try_allocate_none_iff_math a size alignment).mp
        (allocate_error_elim a size alignment e he).1
    · intro h
      exact ⟨ArenaError.badAlloc, (allocate_error_iff a size alignment).mpr
        ((try_allocate_none_iff_math a size alignment).mpr h)⟩
  · intro e he
    exact (allocate_error_elim a size alignment e he).2

/-- **C3, witness.** On a full 4-byte arena, `allocate(1, 1)` raises; the
raised value is `std::bad_alloc`. -/
theorem allocate_raises_single_exception_witness :
    (∃ e, ((Arena.mk 16 4 4).allocate 1 1).1 = Except.error e) ∧
      ArenaError.badAlloc = ArenaError.badAlloc :=
  ⟨(allocate_raises_single_exception (Arena.mk 16 4 4) 1 1).1.mpr
      (Or.inr (by decide)),
    (allocate_raises_single_exception (Arena.mk 16 4 0) 1 3).2
      ArenaError.badAlloc (by decide)⟩

/-- **C4.** The invariant `0 ≤ offset ≤ capacity` (the lower bound being
inherent to `size_t`) holds after construction and is preserved by every
operation: `try_allocate`, `allocate`, `make`, `make_array`, `rewind`,
`reset`, move construction and move assignment. -/
theorem arena_offset_invariant :
    (∀ capacity base, (Arena.create capacity base).Inv) ∧
    (∀ (a : Arena) (s al : Nat), a.Inv → ((a.try_allocate s al).2).Inv) ∧
    (∀ (a : Arena) (s al : Nat), a.Inv → ((a.allocate s al).2).Inv) ∧
    (∀ (a : Arena) (sT alT : Nat), a.Inv → ((a.make sT alT).2).Inv) ∧
    (∀ (a : Arena) (sT alT c : Nat), a.Inv → ((a.make_array sT alT c).2).Inv) ∧
    (∀ (a : Arena) (m : Mark), a.Inv → (a.rewind m).Inv) ∧
    (∀ a : Arena, a.Inv → a.reset.Inv) ∧
    (∀ a : Arena, a.Inv →
      (Arena.moveCtor a).1.Inv ∧ (Arena.moveCtor a).2.Inv) ∧
    (∀ d a : Arena, a.Inv →
      (Arena.moveAssign d a).1.Inv ∧ (Arena.moveAssign d a).2.Inv) := by
  refine ⟨?_, ?_, ?_, ?_, ?_, ?_, ?_, ?_, ?_⟩
  · intro capacity base
    exact Nat.zero_le _
  · intro a s al h
    exact try_allocate_inv a s al h
  · intro a s al h
    show ((a.allocate s al).2).Inv
    rw [Arena.Inv, allocate_snd]
    exact try_allocate_inv a s al h
  · intro a sT alT h
    show ((a.allocate sT alT).2).Inv
    rw [Arena.Inv, allocate_snd]
    exact try_allocate_inv a sT alT h
  · intro a sT alT c h
    rw [Arena.Inv, make_array_snd]
    by_cases hc : c = 0
    · rw [if_pos hc]; exact h
    · rw [if_neg hc, allocate_snd]
      exact try_allocate_inv a (mul64 sT c) alT h
  · intro a m h
    unfold Arena.rewind
    by_cases hm : m.offset ≤ a.capacity
    · rw [if_pos hm]; exact hm
    · rw [if_neg hm]; exact h
  · intro a h
    exact Nat.zero_le _
  · intro a h
    exact ⟨h, Nat.le_refl 0⟩
  · intro d a h
    exact ⟨h, Nat.le_refl 0⟩

/-- **C4, witness.** The invariant holds for the state reached by a concrete
allocation on a concrete arena satisfying it. -/
theorem arena_offset_invariant_witness :
    (((Arena.mk 16 8 3).try_allocate 4 4).2).Inv :=
  arena_offset_invariant.2.1 (Arena.mk 16 8 3) 4 4 (by decide)

/-- **C5.** `rewind(m)` sets the offset to `m`'s saved value whenever that
value is at most the capacity and otherwise leaves the arena unchanged; and
for every mark captured by `mark()` on an arena satisfying the invariant,
rewinding after any sequence of allocations restores `used()` to exactly the
captured value. -/
theorem rewind_restores_mark :
    (∀ (a : Arena) (m : Mark), m.offset ≤ a.capacity →
      a.rewind m = { a with offset := m.offset }) ∧
    (∀ (a : Arena) (m : Mark), a.capacity < m.offset → a.rewind m = a) ∧
    (∀ (a : Arena) (calls : List (Nat × Nat)), a.Inv →
      ((a.allocSeq calls).rewind a.mark).used = a.used) := by
  refine ⟨?_, ?_, ?_⟩
  · intro a m h
    unfold Arena.rewind
    rw [if_pos h]
  · intro a m h
    unfold Arena.rewind
    rw [if_neg (Nat.not_le.mpr h)]
  · intro a calls h
    have hcap : (a.allocSeq calls).capacity = a.capacity :=
      allocSeq_capacity a calls
    unfold Arena.rewind
    rw [if_pos (show (a.mark).offset ≤ (a.allocSeq calls).capacity by
      rw [hcap]; exact h)]
    rfl

/-- **C5, witness.** Marking a fresh 8-byte arena, allocating, then
rewinding restores `used()` to 0. -/
theorem rewind_restores_mark_witness :
    (((Arena.mk 16 8 0).allocSeq [(4, 4)]).rewind (Arena.mk 16 8 0).mark).used =
      (Arena.mk 16 8 0).used :=
  rewind_restores_mark.2.2 (Arena.mk 16 8 0) [(4, 4)] (by decide)

/-- **C6.** A `Scope` discharges its rewind responsibility exactly once:
destroying a still-active scope restores its arena's `used()` to the value
at the scope's construction, whatever capacity-preserving mutations (further
allocations, inner scopes destructed first) happened in between; destroying
a moved-from scope changes nothing; and move-assignment's effect on the
store is exactly a destruction of the destination (rewinding the
destination's own arena to its own mark) before the source's pair and
responsibility are taken over. -/
theorem scope_rewinds_exactly_once :
    (∀ (σ : Store) (i : Nat) (a' : Arena), (σ i).Inv →
      a'.capacity = (σ i).capacity →
      (((Scope.create σ i).destruct (Function.update σ i a')) i).used =
        (σ i).used) ∧
    (∀ (s : Scope) (σ : Store), ((Scope.moveCtor s).2).destruct σ = σ) ∧
    (∀ (dest other : Scope) (σ : Store),
      Scope.moveAssign dest other σ =
        (⟨other.a_, other.m_⟩, ⟨none, other.m_⟩, dest.destruct σ)) := by
  refine ⟨?_, ?_, ?_⟩
  · intro σ i a' hInv hcap
    show ((Function.update (Function.update σ i a') i
      ((Function.update σ i a' i).rewind (σ i).mark)) i).used = (σ i).used
    rw [Function.update_same, Function.update_same]
    unfold Arena.rewind
    rw [if_pos (show ((σ i).mark).offset ≤ a'.capacity by
      rw [hcap]; exact hInv)]
    rfl
  · intro s σ
    rfl
  · intro dest other σ
    rfl

/-- **C6, witness.** A scope opened on arena 0 of a store, destructed after
the arena mutated (capacity preserved), restores `used()` to 2. -/
theorem scope_rewinds_exactly_once_witness :
    (((Scope.create (fun _ => Arena.mk 16 8 2) 0).destruct
        (Function.update (fun _ => Arena.mk 16 8 2) 0 (Arena.mk 16 8 7))) 0).used =
      (Arena.mk 16 8 2).used :=
  scope_rewinds_exactly_once.1 (fun _ => Arena.mk 16 8 2) 0 (Arena.mk 16 8 7)
    (by decide) (by decide)

/-- **C7, counterexample.** Moving from an arena of capacity 4 does *not*
leave the source's capacity unchanged: the buffer is stolen (the moved-from
`std::vector` is empty), so the source's capacity becomes 0. -/
theorem arena_move_capacity_counterexample :
    (Arena.moveCtor (Arena.mk 16 4 2)).2.capacity = 0 ∧
      (Arena.mk 16 4 2).capacity = 4 ∧
      (Arena.moveCtor (Arena.mk 16 4 2)).2.capacity ≠
        (Arena.mk 16 4 2).capacity := by
  refine ⟨rfl, rfl, by decide⟩

/-- **C7 (amended).** After moving an Arena (move construction or move
assignment), the destination reports the source's prior `used()` and
`capacity()`, and the moved-from source reports `used() == 0` and
`capacity() == 0` (its buffer has been surrendered). -/
theorem arena_move_semantics (a d : Arena) :
    ((Arena.moveCtor a).1.used = a.used ∧
      (Arena.moveCtor a).1.capacity = a.capacity ∧
      (Arena.moveCtor a).2.used = 0 ∧ (Arena.moveCtor a).2.capacity = 0) ∧
    ((Arena.moveAssign d a).1.used = a.used ∧
      (Arena.moveAssign d a).1.capacity = a.capacity ∧
      (Arena.moveAssign d a).2.used = 0 ∧
      (Arena.moveAssign d a).2.capacity = 0) :=
  ⟨⟨rfl, rfl, rfl, rfl⟩, ⟨rfl, rfl, rfl, rfl⟩⟩

/-- **C8.** `reset()` always zeroes `used()` and, from every state, yields
exactly the state `rewind` yields for a mark captured at `used() == 0`. -/
theorem reset_is_rewind_zero (a a0 : Arena) (h : a0.used = 0) :
    a.reset.used = 0 ∧ a.reset = a.rewind a0.mark := by
  refine ⟨rfl, ?_⟩
  unfold Arena.reset Arena.rewind Arena.mark
  have h0 : a0.offset = 0 := h
  rw [h0, if_pos (Nat.zero_le _)]

/-- **C8, witness.** -/
theorem reset_is_rewind_zero_witness :
    (Arena.mk 16 8 5).reset.used = 0 ∧
      (Arena.mk 16 8 5).reset = (Arena.mk 16 8 5).rewind (Arena.mk 3 3 0).mark :=
  reset_is_rewind_zero (Arena.mk 16 8 5) (Arena.mk 3 3 0) rfl

/-- **C9.** For every element type (any size and alignment),
`make_array<T>(0)` returns a null result, performs no allocation, and leaves
the arena — in particular `used()` — unchanged. -/
theorem make_array_zero_is_noop (a : Arena) (sizeT alignT : Nat) :
    a.make_array sizeT alignT 0 = (Except.ok none, a) ∧
      (a.make_array sizeT alignT 0).2.used = a.used :=
  ⟨rfl, rfl⟩

/-- **C10.** `make_array` computes the byte size as `sizeof(T) * count` in
`size_t` arithmetic (mod `2^64`): for an 8-byte, 8-aligned element type and
`count = 2^61 + 1` the product wraps to 8, so on a 64-byte arena the call
succeeds and reserves 8 bytes — fewer than the mathematical
`sizeof(T) * count = 2^64 + 8`, which exceeds the capacity — instead of
failing with out-of-capacity. -/
theorem make_array_size_wraps :
    ((Arena.mk 16 64 0).make_array 8 8 (2 ^ 61 + 1)).1 = Except.ok (some 16) ∧
      ((Arena.mk 16 64 0).make_array 8 8 (2 ^ 61 + 1)).2.used = 8 ∧
      mul64 8 (2 ^ 61 + 1) = 8 ∧
      8 * (2 ^ 61 + 1) = 2 ^ 64 + 8 ∧
      (Arena.mk 16 64 0).capacity < 8 * (2 ^ 61 + 1) := by
  refine ⟨by decide, by decide, by decide, by decide, by decide⟩

end ArenaSpec
